import Mathlib

/-!
Shallow embedding of the health-monitoring and failover-forwarding core of the
`golang-proxy` repository (Go sources under `internal/types`, `internal/health`,
`internal/proxy`), together with theorems settling the frozen claims about it.

Conventions of the embedding:
* Go `int`/`int64` become `Int` (no overflow is relevant to any claim);
  timestamps (`time.Time`, set via `time.Now()`) become an explicit `now : Nat`
  parameter; durations in milliseconds become `Int` values passed in.
* Network I/O (`http.Client.Do`) is abstracted as an oracle argument
  `send : RPCEndpoint → Except String UpstreamResp`: an `Except.error` is a Go
  transport error (non-nil `err`), an `Except.ok` is a received `*http.Response`.
* JSON bodies are modelled post-decoding: `ProbeBody`/`CheckerBody` carry the
  decoded shape (or `malformed` for a `json.Decode` error).
-/

/-- `types.RPCEndpoint` (internal/types/types.go). Static config fields plus the
mutable runtime health fields. The `sync.RWMutex` and the unused DB bookkeeping
fields (`CreatedAt`, `UpdatedAt`, `ChainID`, `ChainName`) are omitted; `LastCheck`
is a `Nat` timestamp. -/
structure RPCEndpoint where
  ID : Nat
  Name : String
  URL : String
  Weight : Int
  Enabled : Bool
  Healthy : Bool
  LastCheck : Nat
  ResponseTime : Int
  BlockNumber : String
  FailCount : Int
  deriving DecidableEq, Repr

/-- `(*RPCEndpoint).SetHealthy` (types.go:82-92): sets the flag and `LastCheck`;
resets `FailCount` to 0 when becoming healthy, increments it otherwise. -/
def RPCEndpoint.SetHealthy (e : RPCEndpoint) (healthy : Bool) (now : Nat) : RPCEndpoint :=
  { e with
    Healthy := healthy
    LastCheck := now
    FailCount := if healthy then 0 else e.FailCount + 1 }

/-- `(*RPCEndpoint).IsHealthy` (types.go:94-98). -/
def RPCEndpoint.IsHealthy (e : RPCEndpoint) : Bool :=
  e.Healthy

/-- `(*RPCEndpoint).GetFailCount` (types.go:100-104). -/
def RPCEndpoint.GetFailCount (e : RPCEndpoint) : Int :=
  e.FailCount

/-- `(*RPCEndpoint).SetResponseTime` (types.go:106-110). -/
def RPCEndpoint.SetResponseTime (e : RPCEndpoint) (rt : Int) : RPCEndpoint :=
  { e with ResponseTime := rt }

/-- `(*RPCEndpoint).SetBlockNumber` (types.go:112-116). -/
def RPCEndpoint.SetBlockNumber (e : RPCEndpoint) (bn : String) : RPCEndpoint :=
  { e with BlockNumber := bn }

/-- `(*RPCEndpoint).IncrementFailCount` (types.go:118-123): increments and
returns the new count. -/
def RPCEndpoint.IncrementFailCount (e : RPCEndpoint) : Int × RPCEndpoint :=
  (e.FailCount + 1, { e with FailCount := e.FailCount + 1 })

/-- `(*health.Checker).markHealthy` (internal/health/checker.go:164-174):
`SetHealthy(true)`, then `SetResponseTime`, then `SetBlockNumber`. -/
def markHealthy (e : RPCEndpoint) (responseTime : Int) (blockNumber : String)
    (now : Nat) : RPCEndpoint :=
  ((e.SetHealthy true now).SetResponseTime responseTime).SetBlockNumber blockNumber

/-- `(*health.Checker).markUnhealthy` (internal/health/checker.go:176-191):
`SetResponseTime`, `SetBlockNumber`, `IncrementFailCount`; if the incremented
count has reached `config.Retries`, additionally `SetHealthy(false)` (which
increments `FailCount` once more). -/
def markUnhealthy (retries : Int) (e : RPCEndpoint) (responseTime : Int)
    (blockNumber : String) (now : Nat) : RPCEndpoint :=
  let e1 := (e.SetResponseTime responseTime).SetBlockNumber blockNumber
  let fc := e1.IncrementFailCount
  if fc.1 ≥ retries then fc.2.SetHealthy false now else fc.2

/-- The all-attempts-failed tail of
`(*health.MultiChainChecker).checkEndpointHealth` (unnamed/part_005:266-273):
after the retry loop is exhausted, `SetHealthy(false)` then `SetResponseTime`. -/
def checkEndpointHealthAllFailed (e : RPCEndpoint) (responseTime : Int)
    (now : Nat) : RPCEndpoint :=
  (e.SetHealthy false now).SetResponseTime responseTime

/-- A decoded JSON value, as far as the probe code inspects one: the Go code
only distinguishes `nil`, strings, and everything else (numbers, objects,
arrays, booleans — which all fail the `.(string)` assertion). -/
inductive JVal where
  | null
  | str (s : String)
  | other
  deriving DecidableEq, Repr

/-- `types.JSONRPCError` (types.go:139-143), as embedded in a decoded checker
response; `Data` is collapsed to an optional string. -/
structure JSONRPCErrorObj where
  Code : Int
  Message : String
  Data : Option String
  deriving DecidableEq, Repr

/-- The body of a probe response as `MultiChainChecker.processHealthCheckResponse`
decodes it (`json.Decode` into `map[string]interface{}`, part_005:290-295):
either malformed JSON, or a map whose `"error"` and `"result"` keys are given
(`none` when the key is absent). -/
inductive ProbeBody where
  | malformed
  | ok (error : Option JVal) (result : Option JVal)
  deriving DecidableEq, Repr

/-- The body of a probe response as `Checker.checkEndpoint` decodes it
(`json.Decode` into `types.JSONRPCResponse`, checker.go:141-146): the struct's
`Error` pointer and `Result interface{}` (a missing `result` key leaves the
interface `nil`, modelled `JVal.null`). -/
inductive CheckerBody where
  | malformed
  | decoded (error : Option JSONRPCErrorObj) (result : JVal)
  deriving DecidableEq, Repr

/-- One hex digit's value, per `strconv`'s digit table (`0-9a-fA-F`). -/
def hexDigitVal (c : Char) : Option Nat :=
  if '0' ≤ c ∧ c ≤ '9' then some (c.toNat - '0'.toNat)
  else if 'a' ≤ c ∧ c ≤ 'f' then some (c.toNat - 'a'.toNat + 10)
  else if 'A' ≤ c ∧ c ≤ 'F' then some (c.toNat - 'A'.toNat + 10)
  else none

/-- Accumulating digit loop of `strconv.ParseUint(s, 16, _)`: fails on the
first non-hex-digit character. -/
def parseHexDigitsAux : List Char → Nat → Option Nat
  | [], acc => some acc
  | c :: cs, acc =>
    match hexDigitVal c with
    | none => none
    | some d => parseHexDigitsAux cs (acc * 16 + d)

/-- `strconv.ParseUint(s, 16, _)` digit phase: empty input is an error. -/
def parseHexDigits (cs : List Char) : Option Nat :=
  match cs with
  | [] => none
  | _ => parseHexDigitsAux cs 0

/-- `strconv.ParseInt(s, 16, 64)`: an optional leading `+`/`-` sign, then a
non-empty run of hex digits; the value must fit in a signed 64-bit integer
(`≤ 2^63 - 1` for non-negative, magnitude `≤ 2^63` for negative), otherwise
the Go call returns a range error, modelled `none`. -/
def parseInt64Hex (cs : List Char) : Option Int :=
  match cs with
  | [] => none
  | c :: rest =>
    let neg := c = '-'
    let digits := if c = '-' ∨ c = '+' then rest else c :: rest
    match parseHexDigits digits with
    | none => none
    | some n =>
      if neg then
        if n ≤ 2 ^ 63 then some (-(n : Int)) else none
      else
        if n ≤ 2 ^ 63 - 1 then some (n : Int) else none

/-- The `exists && errorObj != nil` test of part_005:298. -/
def jsonErrorPresent : Option JVal → Bool
  | some v => v ≠ JVal.null
  | none => false

/-- The result-extraction of part_005:305-315: the `"result"` key must be
present and non-nil, a string, start with `"0x"` (`strings.HasPrefix`), and its
remainder (`blockHex[2:]`) must parse via `strconv.ParseInt(_, 16, 64)`. -/
def resultHexValue : Option JVal → Option Int
  | some (JVal.str s) =>
    match s.toList with
    | '0' :: 'x' :: rest => parseInt64Hex rest
    | _ => none
  | _ => none

/-- `(*MultiChainChecker).processHealthCheckResponse` (part_005:277-320):
`SetResponseTime` first; then non-200 status, malformed body, a present
`error` field, or an unextractable result each `SetHealthy(false)`; a valid
result stores the parsed block number in decimal (`fmt.Sprintf("%d", n)`,
modelled `toString n`) and `SetHealthy(true)`. -/
def processHealthCheckResponse (e : RPCEndpoint) (status : Nat) (body : ProbeBody)
    (responseTime : Int) (now : Nat) : RPCEndpoint :=
  let e1 := e.SetResponseTime responseTime
  if status ≠ 200 then e1.SetHealthy false now
  else
    match body with
    | .malformed => e1.SetHealthy false now
    | .ok errv resv =>
      if jsonErrorPresent errv then e1.SetHealthy false now
      else
        match resultHexValue resv with
        | some n => (e1.SetBlockNumber (toString n)).SetHealthy true now
        | none => e1.SetHealthy false now

/-- The success condition and parsed value of `processHealthCheckResponse`,
factored out of its branches. -/
def probeResultValue (status : Nat) (body : ProbeBody) : Option Int :=
  if status ≠ 200 then none
  else
    match body with
    | .malformed => none
    | .ok errv resv => if jsonErrorPresent errv then none else resultHexValue resv

/-- The response-handling part of `(*health.Checker).checkEndpoint`
(checker.go:135-161): non-200, malformed body, or a non-nil `Error` go to
`markUnhealthy` with block number `""`; then `rpcResp.Result.(string)` — any
string at all — goes to `markHealthy` with the string stored verbatim, and any
non-string result goes to `markUnhealthy`. -/
def checkEndpointResponse (retries : Int) (e : RPCEndpoint) (status : Nat)
    (body : CheckerBody) (responseTime : Int) (now : Nat) : RPCEndpoint :=
  if status ≠ 200 then markUnhealthy retries e responseTime "" now
  else
    match body with
    | .malformed => markUnhealthy retries e responseTime "" now
    | .decoded err result =>
      if err.isSome then markUnhealthy retries e responseTime "" now
      else
        match result with
        | .str s => markHealthy e responseTime s now
        | _ => markUnhealthy retries e responseTime "" now

/-- Spec-side predicate, from §4.1 of the specification: a `result` counts as
valid when it is "a `0x`-prefixed hexadecimal string parseable as a
non-negative integer" — i.e. `0x` followed by a non-empty run of plain hex
digits (no sign). Used only to compare the code against the spec's words. -/
def specProbeResultOk (s : String) : Bool :=
  match s.toList with
  | '0' :: 'x' :: rest => !rest.isEmpty && rest.all (fun c => (hexDigitVal c).isSome)
  | _ => false

/-- The registry's chain map `mc.chains : map[string]*ChainConfig`
(part_005:26), modelled as an association list from chain name to the chain's
endpoint list (`ChainConfig.Endpoints`; the `Chain` metadata field is not
consulted by any claim's code). -/
def Chains : Type :=
  List (String × List RPCEndpoint)

/-- `(*MultiChainChecker).GetHealthyEndpoints` (part_005:86-103): look the chain
up in the map (`nil` when absent) and keep exactly the endpoints with
`IsHealthy()`; the `Enabled` flag is not consulted. -/
def GetHealthyEndpoints (chains : Chains) (chainName : String) : List RPCEndpoint :=
  match List.lookup chainName chains with
  | none => []
  | some eps => eps.filter (fun e => e.IsHealthy)

/-- An upstream HTTP response, as far as `copyResponse` transfers it: status
code and body (headers are copied too but are not inspected by any claim). -/
structure UpstreamResp where
  status : Nat
  body : String
  deriving DecidableEq, Repr

/-- The JSON-RPC error envelope built by `(*proxy.Server).writeErrorResponse`
(server.go:303-318): fields of `types.JSONRPCResponse` with `Error` set and
`ID = nil` (`none`). -/
structure ErrorEnvelope where
  Jsonrpc : String
  Error : JSONRPCErrorObj
  ID : Option Int
  deriving DecidableEq, Repr

/-- What `handleRPCForChain` writes to the caller: either an upstream response
copied verbatim (`copyResponse`, server.go:292-301), or a synthetic JSON-RPC
error written with the given HTTP status (`writeErrorResponse`). -/
inductive HTTPOut where
  | upstream (status : Nat) (body : String)
  | rpcError (httpStatus : Nat) (env : ErrorEnvelope)
  deriving DecidableEq, Repr

/-- `(*proxy.Server).writeErrorResponse` (server.go:303-318): HTTP 200
(`http.StatusOK`), envelope `jsonrpc "2.0"`, the given error code, message and
data, and `ID: nil`. -/
def writeErrorResponse (code : Int) (message : String) (data : Option String) : HTTPOut :=
  .rpcError 200 ⟨"2.0", ⟨code, message, data⟩, none⟩

/-- `(*proxy.Server).copyResponse` (server.go:292-301): the upstream status
code and body are written back unmodified. -/
def copyResponse (resp : UpstreamResp) : HTTPOut :=
  .upstream resp.status resp.body

/-- `(*proxy.Server).forwardRequest` (server.go:262-290): builds the upstream
request and runs `client.Do`, abstracted by the transport oracle `send`; it
performs no write to any endpoint's health state, which the explicit `chains`
threading records. -/
def forwardRequest (send : RPCEndpoint → Except String UpstreamResp)
    (chains : Chains) (e : RPCEndpoint) : Except String UpstreamResp × Chains :=
  (send e, chains)

/-- Result of one `handleRPCForChain` call: what was written to the caller,
which endpoints were attempted upstream (in order), and the registry state
after the call. -/
structure ForwardOutcome where
  out : HTTPOut
  attempted : List RPCEndpoint
  chains : Chains

/-- The failover loop of `(*proxy.Server).handleRPCForChain`
(server.go:201-222): try each endpoint in order; a transport error is recorded
in `lastErr` and the loop continues; the first received response is copied back
verbatim and the loop stops; on exhaustion, `writeErrorResponse(-32000,
"All RPC endpoints failed", lastErr.Error())` (at that point `lastErr` is the
error of the last attempted endpoint, and is non-nil because the loop ran at
least once). -/
def tryEndpoints (send : RPCEndpoint → Except String UpstreamResp) :
    List RPCEndpoint → Option String → Chains → ForwardOutcome
  | [], lastErr, chains =>
    ⟨writeErrorResponse (-32000) "All RPC endpoints failed" lastErr, [], chains⟩
  | e :: rest, _lastErr, chains =>
    match forwardRequest send chains e with
    | (.error err, chains1) =>
      let r := tryEndpoints send rest (some err) chains1
      ⟨r.out, e :: r.attempted, r.chains⟩
    | (.ok resp, chains1) => ⟨copyResponse resp, [e], chains1⟩

/-- One sweep of the inner `j` loop of `getSortedEndpointsByWeight`
(server.go:251-257) with a budget of `m` remaining comparisons: compare the two
front elements and swap them when the first has strictly smaller weight, then
continue down the list until the budget is spent. -/
def sweep : List RPCEndpoint → Nat → List RPCEndpoint
  | l, 0 => l
  | [], _ + 1 => []
  | [a], _ + 1 => [a]
  | a :: b :: rest, m + 1 =>
    if a.Weight < b.Weight then b :: sweep (a :: rest) m
    else a :: sweep (b :: rest) m

/-- The outer `i` loop of `getSortedEndpointsByWeight`: successive sweeps with
`k, k-1, ..., 1` comparisons (the Go bounds `n-i-1` for `i = 0 .. n-2`). -/
def bubbleIter : List RPCEndpoint → Nat → List RPCEndpoint
  | l, 0 => l
  | l, k + 1 => bubbleIter (sweep l (k + 1)) k

/-- `(*proxy.Server).getSortedEndpointsByWeight` (server.go:241-260): `nil` for
an empty input, otherwise the bubble sort of a copy of the slice, descending by
weight, swapping only on strict `<`. -/
def getSortedEndpointsByWeight (endpoints : List RPCEndpoint) : List RPCEndpoint :=
  if endpoints = [] then []
  else bubbleIter endpoints (endpoints.length - 1)

/-- `(*proxy.Server).handleRPCForChain` (server.go:154-222), from the point the
request body has been read: fetch the chain's healthy endpoints; when that set
is empty, `writeErrorResponse(-32000, "No healthy RPC endpoints available for
chain: <name>", nil)` with no upstream attempt; otherwise run the failover loop
over the weight-sorted list. -/
def handleRPCForChain (chains : Chains) (chainName : String)
    (send : RPCEndpoint → Except String UpstreamResp) : ForwardOutcome :=
  let healthyEndpoints := GetHealthyEndpoints chains chainName
  if healthyEndpoints = [] then
    ⟨writeErrorResponse (-32000)
        ("No healthy RPC endpoints available for chain: " ++ chainName) none,
      [], chains⟩
  else
    tryEndpoints send (getSortedEndpointsByWeight healthyEndpoints) none chains

/-- The shared-state picture of a running `MultiChainChecker` (part_005:24-34).
Endpoint objects are shared by pointer between the registry map and the
per-chain checker goroutines, so they live in a `heap` keyed by endpoint ID;
`chains` is the registry map `mc.chains` (chain name to endpoint IDs); `loops`
records the per-chain goroutines started by `Start`/`AddChain`, each having
captured its `chainConfig` (endpoint IDs) at launch (part_005:64-67, 356-359);
`cancelled` is whether `mc.cancel()` has fired (`mc.ctx.Done()`). -/
structure MCState where
  heap : List (Nat × RPCEndpoint)
  chains : List (String × List Nat)
  loops : List (String × List Nat)
  cancelled : Bool
  deriving DecidableEq, Repr

/-- `(*MultiChainChecker).RemoveChain` (part_005:364-371): under the lock,
`delete(mc.chains, chainName)` — and nothing else: no goroutine is signalled,
`loops` and `cancelled` are untouched. -/
def RemoveChain (st : MCState) (chainName : String) : MCState :=
  { st with chains := st.chains.filter (fun p => p.1 ≠ chainName) }

/-- Point update of the endpoint heap (a write through a shared pointer). -/
def heapUpdate (heap : List (Nat × RPCEndpoint)) (id : Nat)
    (f : RPCEndpoint → RPCEndpoint) : List (Nat × RPCEndpoint) :=
  heap.map (fun p => if p.1 = id then (p.1, f p.2) else p)

/-- One ticker firing of `runChainHealthChecker` (part_005:172-180) for the
named chain, in the run where every probe attempt fails at transport: the loop
exits only on `mc.ctx.Done()`, so unless `cancelled` the goroutine (if still
running) executes `checkChainHealth`, which probes every `Enabled` endpoint of
its captured config (part_005:188-198) — here each such probe runs the
all-attempts-failed path of `checkEndpointHealth`. -/
def tickAllFail (st : MCState) (chainName : String) (responseTime : Int)
    (now : Nat) : MCState :=
  if st.cancelled then st
  else
    match List.lookup chainName st.loops with
    | none => st
    | some ids =>
      { st with
        heap := ids.foldl (fun h id =>
          heapUpdate h id (fun e =>
            if e.Enabled then checkEndpointHealthAllFailed e responseTime now
            else e)) st.heap }

/-- A concrete endpoint used by the closed example theorems below. -/
def sampleEndpoint (id : Nat) (weight : Int) (healthy enabled : Bool) : RPCEndpoint :=
  ⟨id, "endpoint", "http://rpc.example", weight, enabled, healthy, 0, 0, "", 0⟩

/-- A concrete transport oracle: endpoint 2 fails at transport, every other
endpoint answers HTTP 201 with body `"resp1"`. -/
def sendFailTwo (e : RPCEndpoint) : Except String UpstreamResp :=
  if e.ID = 2 then .error "boom" else .ok ⟨201, "resp1"⟩

/-- A concrete transport oracle where every endpoint fails at transport. -/
def sendAllFail (e : RPCEndpoint) : Except String UpstreamResp :=
  if e.ID = 2 then .error "err2" else .error "err1"

/-- A concrete running checker: one chain `"ethereum"` whose single enabled,
healthy endpoint has ID 1; the chain's checker goroutine is running and the
global context is not cancelled. -/
def mcSample : MCState :=
  ⟨[(1, sampleEndpoint 1 3 true true)], [("ethereum", [1])], [("ethereum", [1])], false⟩

/-! ### Helper lemmas about the failover loop -/

/-- The failover loop threads the registry through unchanged: no branch of
`tryEndpoints` writes to any endpoint's state. -/
theorem tryEndpoints_chains_eq (send : RPCEndpoint → Except String UpstreamResp) :
    ∀ (es : List RPCEndpoint) (lastErr : Option String) (chains : Chains),
      (tryEndpoints send es lastErr chains).chains = chains := by
  intro es
  induction es with
  | nil => intro lastErr chains; rfl
  | cons e rest ih =>
    intro lastErr chains
    simp only [tryEndpoints, forwardRequest]
    cases h : send e with
    | error err => simp only [h, ih]
    | ok resp => rfl

/-- If every endpoint of `pre` fails at transport and `ek` answers `r`, the
loop stops at `ek`, having attempted exactly `pre ++ [ek]`, and copies `r`
back verbatim. -/
theorem tryEndpoints_firstSuccess (send : RPCEndpoint → Except String UpstreamResp) :
    ∀ (pre : List RPCEndpoint) (ek : RPCEndpoint) (post : List RPCEndpoint)
      (lastErr : Option String) (chains : Chains) (r : UpstreamResp),
      (∀ e ∈ pre, ∃ m, send e = .error m) → send ek = .ok r →
      tryEndpoints send (pre ++ ek :: post) lastErr chains =
        ⟨.upstream r.status r.body, pre ++ [ek], chains⟩ := by
  intro pre
  induction pre with
  | nil =>
    intro ek post lastErr chains r _ hok
    simp only [List.nil_append, tryEndpoints, forwardRequest, hok, copyResponse]
  | cons p pre ih =>
    intro ek post lastErr chains r hfail hok
    obtain ⟨m, hm⟩ := hfail p (List.mem_cons_self p _)
    simp only [List.cons_append, tryEndpoints, forwardRequest, hm, List.append_eq]
    rw [ih ek post (some m) chains r (fun e he => hfail e (List.mem_cons_of_mem _ he)) hok]

/-- If every endpoint fails at transport, the loop attempts the whole list and
returns the synthetic error carrying the last endpoint's transport error. -/
theorem tryEndpoints_allFail (send : RPCEndpoint → Except String UpstreamResp) :
    ∀ (init : List RPCEndpoint) (elast : RPCEndpoint) (lastErr : Option String)
      (chains : Chains) (lastMsg : String),
      (∀ e ∈ init, ∃ m, send e = .error m) → send elast = .error lastMsg →
      tryEndpoints send (init ++ [elast]) lastErr chains =
        ⟨writeErrorResponse (-32000) "All RPC endpoints failed" (some lastMsg),
          init ++ [elast], chains⟩ := by
  intro init
  induction init with
  | nil =>
    intro elast lastErr chains lastMsg _ hlast
    simp only [List.nil_append, tryEndpoints, forwardRequest, hlast]
  | cons p init ih =>
    intro elast lastErr chains lastMsg hfail hlast
    obtain ⟨m, hm⟩ := hfail p (List.mem_cons_self p _)
    simp only [List.cons_append, tryEndpoints, forwardRequest, hm, List.append_eq]
    rw [ih elast (some m) chains lastMsg (fun e he => hfail e (List.mem_cons_of_mem _ he)) hlast]

/-! ### Claim theorems -/

/-- C1 (counterexample): a healthy endpoint with `FailCount = 0` goes through
one failed probe pass of `MultiChainChecker.checkEndpointHealth`; its
consecutive-failure counter becomes 1, strictly below the configured retry
threshold 3, yet the healthy flag flips to `false` — refuting the claim that
below the threshold the healthy flag is left unchanged. -/
theorem checkEndpointHealth_failedPass_flipsBelowThreshold :
    (sampleEndpoint 1 3 true true).Healthy = true ∧
    (sampleEndpoint 1 3 true true).FailCount = 0 ∧
    (checkEndpointHealthAllFailed (sampleEndpoint 1 3 true true) 5 1).FailCount = 1 ∧
    ((1 : Int) < 3) ∧
    (checkEndpointHealthAllFailed (sampleEndpoint 1 3 true true) 5 1).Healthy = false := by
  decide

/-- C1 (amended): on a failed probe pass, `MultiChainChecker.checkEndpointHealth`
increments `FailCount` by exactly 1 but sets the healthy flag to `false`
unconditionally, with no threshold tolerance; in the legacy
`Checker.markUnhealthy`, the healthy flag flips to `false` exactly when the
incremented counter has reached `config.Retries` — and on such a
threshold-reaching pass `FailCount` grows by 2 (`IncrementFailCount` plus the
increment inside `SetHealthy(false)`), while below the threshold it grows by 1
and the flag is left unchanged. -/
theorem failedPass_counter_and_flag (e : RPCEndpoint) (retries rt rt2 : Int)
    (bn : String) (now : Nat) :
    (checkEndpointHealthAllFailed e rt now).FailCount = e.FailCount + 1 ∧
    (checkEndpointHealthAllFailed e rt now).Healthy = false ∧
    (markUnhealthy retries e rt2 bn now).FailCount =
      (if e.FailCount + 1 ≥ retries then e.FailCount + 2 else e.FailCount + 1) ∧
    (markUnhealthy retries e rt2 bn now).Healthy =
      (if e.FailCount + 1 ≥ retries then false else e.Healthy) := by
  refine ⟨rfl, rfl, ?_, ?_⟩ <;>
  · simp only [markUnhealthy, RPCEndpoint.IncrementFailCount, RPCEndpoint.SetResponseTime,
      RPCEndpoint.SetBlockNumber, RPCEndpoint.SetHealthy]
    split <;> simp <;> omega

/-- C2: a successful probe sets the healthy flag and resets the
consecutive-failure counter to 0, whatever its prior value: directly in
`RPCEndpoint.SetHealthy(true)` (types.go), hence both in `Checker.markHealthy`
(checker.go) and in the success path of
`MultiChainChecker.processHealthCheckResponse` (`SetBlockNumber` then
`SetHealthy(true)`); in particular a currently-unhealthy endpoint is healthy
right after the next successful probe. -/
theorem successfulProbe_setsHealthy_resetsFailCount (e : RPCEndpoint) (rt : Int)
    (bn : String) (now : Nat) :
    (e.SetHealthy true now).Healthy = true ∧
    (e.SetHealthy true now).FailCount = 0 ∧
    (markHealthy e rt bn now).Healthy = true ∧
    (markHealthy e rt bn now).FailCount = 0 ∧
    ((e.SetBlockNumber bn).SetHealthy true now).Healthy = true ∧
    ((e.SetBlockNumber bn).SetHealthy true now).FailCount = 0 :=
  ⟨rfl, rfl, rfl, rfl, rfl, rfl⟩

/-- C3: when the chain's healthy endpoint set is empty, `handleRPCForChain`
attempts no upstream call (`attempted = []`), leaves the registry untouched,
and immediately writes the JSON-RPC error envelope with the negative
application code -32000 and message
`No healthy RPC endpoints available for chain: <name>`. -/
theorem handleRPCForChain_noHealthyEndpoints (chains : Chains) (chainName : String)
    (send : RPCEndpoint → Except String UpstreamResp)
    (h : GetHealthyEndpoints chains chainName = []) :
    handleRPCForChain chains chainName send =
      ⟨HTTPOut.rpcError 200
          ⟨"2.0", ⟨-32000, "No healthy RPC endpoints available for chain: " ++ chainName, none⟩,
            none⟩,
        [], chains⟩ ∧
    (-32000 : Int) < 0 := by
  refine ⟨?_, by decide⟩
  simp only [handleRPCForChain, h, if_pos rfl]
  rfl

/-- C3 (witness): a registry with no chains at all. -/
theorem handleRPCForChain_noHealthyEndpoints_witness :
    handleRPCForChain [] "ethereum" sendAllFail =
      ⟨HTTPOut.rpcError 200
          ⟨"2.0", ⟨-32000, "No healthy RPC endpoints available for chain: " ++ "ethereum", none⟩,
            none⟩,
        [], []⟩ ∧
    (-32000 : Int) < 0 :=
  handleRPCForChain_noHealthyEndpoints [] "ethereum" sendAllFail rfl

/-- C10: a `handleRPCForChain` call returns the registry exactly as it found
it — whatever the chain, the transport outcomes, and the number of failed
attempts, no endpoint's health state (healthy flag, fail count, response time,
block number, last-check time) is written by the request path. -/
theorem handleRPCForChain_leavesStateUnchanged (chains : Chains) (chainName : String)
    (send : RPCEndpoint → Except String UpstreamResp) :
    (handleRPCForChain chains chainName send).chains = chains := by
  unfold handleRPCForChain
  dsimp only
  split
  · rfl
  · exact tryEndpoints_chains_eq send _ _ _

/-- C7 (counterexample): an HTTP-200, well-formed, error-free probe response
whose `result` is `"0x-5"` — not a `0x`-prefixed hexadecimal string of a
non-negative integer per the spec's criterion — is nevertheless counted a
success by `processHealthCheckResponse` (because `strconv.ParseInt` accepts a
leading sign), and the stored block number is the negative string `"-5"`. -/
theorem processHealthCheckResponse_acceptsSignedHex :
    (processHealthCheckResponse (sampleEndpoint 1 1 false true) 200
        (ProbeBody.ok none (some (JVal.str "0x-5"))) 5 1).Healthy = true ∧
    (processHealthCheckResponse (sampleEndpoint 1 1 false true) 200
        (ProbeBody.ok none (some (JVal.str "0x-5"))) 5 1).BlockNumber = "-5" ∧
    specProbeResultOk "0x-5" = false := by
  decide

/-- C7 (amended): a probe response to `MultiChainChecker` counts as a success
iff the HTTP status is 200, the body decodes, no non-null `error` field is
present, and the result is a string starting with `0x` whose remainder parses
via `strconv.ParseInt(_, 16, 64)` — which admits an optional leading sign and
bounds the magnitude to 64 bits; on success the parsed integer is stored as its
decimal string (result `"0x10"` stores `"16"`), and every other outcome marks
the endpoint unhealthy. The legacy `Checker.checkEndpoint` instead accepts any
string result after HTTP 200/no-error and stores it verbatim, unvalidated. -/
theorem probeSuccess_characterization (e : RPCEndpoint) (status : Nat)
    (body : ProbeBody) (rt : Int) (now : Nat) (retries : Int) (s : String) :
    processHealthCheckResponse e status body rt now =
      (match probeResultValue status body with
       | some n => ((e.SetResponseTime rt).SetBlockNumber (toString n)).SetHealthy true now
       | none => (e.SetResponseTime rt).SetHealthy false now) ∧
    (processHealthCheckResponse e 200 (ProbeBody.ok none (some (JVal.str "0x10")))
        rt now).BlockNumber = "16" ∧
    checkEndpointResponse retries e 200 (CheckerBody.decoded none (JVal.str s)) rt now =
      markHealthy e rt s now := by
  refine ⟨?_, rfl, rfl⟩
  by_cases hst : status = 200
  · subst hst
    cases body with
    | malformed => rfl
    | ok errv resv =>
      by_cases herr : jsonErrorPresent errv = true
      · simp [processHealthCheckResponse, probeResultValue, herr]
      · cases hres : resultHexValue resv <;>
          simp [processHealthCheckResponse, probeResultValue, herr, hres]
  · simp [processHealthCheckResponse, probeResultValue, hst]

/-- C8: `RemoveChain("ethereum")` deletes only the registry map entry; the
chain's checker goroutine is still registered and the shared context is not
cancelled, so its next ticker firing still runs a probe pass over the removed
chain's endpoints and mutates their health state — here endpoint 1 goes from
healthy with `FailCount = 0` to unhealthy with `FailCount = 1` and updated
`LastCheck`/`ResponseTime`, after `RemoveChain` has returned. -/
theorem removeChain_leavesCheckerRunning :
    (RemoveChain mcSample "ethereum").chains = [] ∧
    List.lookup "ethereum" (RemoveChain mcSample "ethereum").loops = some [1] ∧
    (RemoveChain mcSample "ethereum").cancelled = false ∧
    List.lookup 1 (RemoveChain mcSample "ethereum").heap =
      some (sampleEndpoint 1 3 true true) ∧
    List.lookup 1 (tickAllFail (RemoveChain mcSample "ethereum") "ethereum" 5 7).heap =
      some (checkEndpointHealthAllFailed (sampleEndpoint 1 3 true true) 5 7) ∧
    (checkEndpointHealthAllFailed (sampleEndpoint 1 3 true true) 5 7).Healthy = false ∧
    (checkEndpointHealthAllFailed (sampleEndpoint 1 3 true true) 5 7).FailCount = 1 := by
  decide

/-- C9 (counterexample): a chain whose single endpoint is healthy but disabled
— `GetHealthyEndpoints` returns it anyway, refuting the claim that every
returned endpoint has `enabled = true`. -/
theorem getHealthyEndpoints_returnsDisabled :
    GetHealthyEndpoints [("chainA", [sampleEndpoint 1 1 true false])] "chainA" =
      [sampleEndpoint 1 1 true false] ∧
    (sampleEndpoint 1 1 true false).Enabled = false ∧
    (sampleEndpoint 1 1 true false).Healthy = true := by
  decide

/-- C9 (amended): `GetHealthyEndpoints` returns exactly the chain's endpoints
whose healthy flag is true — the enabled flag is not consulted — and the empty
list when the chain name is not in the registry (the lookup defaulting to no
endpoints). -/
theorem getHealthyEndpoints_characterization (chains : Chains) (chainName : String) :
    GetHealthyEndpoints chains chainName =
      ((List.lookup chainName chains).getD []).filter (fun e => e.Healthy) ∧
    ∀ e : RPCEndpoint, e ∈ GetHealthyEndpoints chains chainName ↔
      e ∈ (List.lookup chainName chains).getD [] ∧ e.Healthy = true := by
  constructor
  · unfold GetHealthyEndpoints RPCEndpoint.IsHealthy
    cases List.lookup chainName chains <;> rfl
  · intro e
    unfold GetHealthyEndpoints RPCEndpoint.IsHealthy
    cases List.lookup chainName chains <;> simp [List.mem_filter]

/-- C5: with a non-empty healthy set, if the first `k` endpoints in weight
order (`pre`) fail at transport and the `k+1`th (`ek`) returns a response `r`,
`handleRPCForChain` copies back exactly `r`'s status code and body, the
attempted endpoints are exactly `pre ++ [ek]` (none after `ek`), and the
registry is untouched. -/
theorem handleRPCForChain_failoverFirstSuccess (chains : Chains) (chainName : String)
    (send : RPCEndpoint → Except String UpstreamResp)
    (pre : List RPCEndpoint) (ek : RPCEndpoint) (post : List RPCEndpoint)
    (r : UpstreamResp)
    (hne : GetHealthyEndpoints chains chainName ≠ [])
    (hsorted : getSortedEndpointsByWeight (GetHealthyEndpoints chains chainName) =
      pre ++ ek :: post)
    (hfail : ∀ e ∈ pre, ∃ m, send e = Except.error m)
    (hok : send ek = Except.ok r) :
    handleRPCForChain chains chainName send =
      ⟨HTTPOut.upstream r.status r.body, pre ++ [ek], chains⟩ := by
  simp only [handleRPCForChain, if_neg hne, hsorted]
  exact tryEndpoints_firstSuccess send pre ek post none chains r hfail hok

/-- C5 (witness): two healthy endpoints; the heavier one (weight 3, ID 2) is
tried first and fails at transport, the lighter one (ID 1) answers
HTTP 201 `"resp1"`, which is returned verbatim; only those two attempts
happen. -/
theorem handleRPCForChain_failoverFirstSuccess_witness :
    handleRPCForChain
        [("c", [sampleEndpoint 1 2 true true, sampleEndpoint 2 3 true true])] "c"
        sendFailTwo =
      ⟨HTTPOut.upstream 201 "resp1",
        [sampleEndpoint 2 3 true true, sampleEndpoint 1 2 true true],
        [("c", [sampleEndpoint 1 2 true true, sampleEndpoint 2 3 true true])]⟩ := by
  have h := handleRPCForChain_failoverFirstSuccess
    [("c", [sampleEndpoint 1 2 true true, sampleEndpoint 2 3 true true])] "c"
    sendFailTwo
    [sampleEndpoint 2 3 true true] (sampleEndpoint 1 2 true true) [] ⟨201, "resp1"⟩
    (by decide) (by decide)
    (by
      intro e he
      have : e = sampleEndpoint 2 3 true true := by
        cases he with
        | head => rfl
        | tail _ h' => cases h'
      subst this
      exact ⟨"boom", rfl⟩)
    rfl
  exact h

/-- C6: with a non-empty healthy set whose weight order is `init ++ [elast]`,
if every endpoint fails at transport, `handleRPCForChain` attempts the whole
list and writes one synthetic JSON-RPC error with the HTTP success status 200,
envelope `jsonrpc "2.0"`, `id` null, the negative application code -32000,
the human-readable message `All RPC endpoints failed`, and a data payload
carrying the last observed transport error (that of `elast`). -/
theorem handleRPCForChain_exhaustionError (chains : Chains) (chainName : String)
    (send : RPCEndpoint → Except String UpstreamResp)
    (init : List RPCEndpoint) (elast : RPCEndpoint) (lastMsg : String)
    (hne : GetHealthyEndpoints chains chainName ≠ [])
    (hsorted : getSortedEndpointsByWeight (GetHealthyEndpoints chains chainName) =
      init ++ [elast])
    (hfail : ∀ e ∈ init, ∃ m, send e = Except.error m)
    (hlast : send elast = Except.error lastMsg) :
    handleRPCForChain chains chainName send =
      ⟨HTTPOut.rpcError 200
          ⟨"2.0", ⟨-32000, "All RPC endpoints failed", some lastMsg⟩, none⟩,
        init ++ [elast], chains⟩ ∧
    (-32000 : Int) < 0 := by
  refine ⟨?_, by decide⟩
  simp only [handleRPCForChain, if_neg hne, hsorted]
  exact tryEndpoints_allFail send init elast none chains lastMsg hfail hlast

/-- C6 (witness): both endpoints fail at transport; the caller gets the
synthetic envelope with the error of the last-attempted endpoint (ID 1,
`"err1"`) as data. -/
theorem handleRPCForChain_exhaustionError_witness :
    handleRPCForChain
        [("c", [sampleEndpoint 1 2 true true, sampleEndpoint 2 3 true true])] "c"
        sendAllFail =
      ⟨HTTPOut.rpcError 200
          ⟨"2.0", ⟨-32000, "All RPC endpoints failed", some "err1"⟩, none⟩,
        [sampleEndpoint 2 3 true true, sampleEndpoint 1 2 true true],
        [("c", [sampleEndpoint 1 2 true true, sampleEndpoint 2 3 true true])]⟩ ∧
    (-32000 : Int) < 0 := by
  have h := handleRPCForChain_exhaustionError
    [("c", [sampleEndpoint 1 2 true true, sampleEndpoint 2 3 true true])] "c"
    sendAllFail
    [sampleEndpoint 2 3 true true] (sampleEndpoint 1 2 true true) "err1"
    (by decide) (by decide)
    (by
      intro e he
      have : e = sampleEndpoint 2 3 true true := by
        cases he with
        | head => rfl
        | tail _ h' => cases h'
      subst this
      exact ⟨"err2", rfl⟩)
    rfl
  exact h

/-! ### Helper lemmas about the bubble sort -/

/-- Each sweep only performs adjacent transpositions, so it permutes. -/
theorem sweep_perm : ∀ (m : Nat) (l : List RPCEndpoint), List.Perm (sweep l m) l := by
  intro m
  induction m with
  | zero => intro l; cases l <;> simp [sweep]
  | succ m ih =>
    intro l
    match l with
    | [] => simp [sweep]
    | [a] => simp [sweep]
    | a :: b :: rest =>
      simp only [sweep]
      by_cases h : a.Weight < b.Weight
      · rw [if_pos h]
        exact ((ih (a :: rest)).cons b).trans (List.Perm.swap a b rest)
      · rw [if_neg h]
        exact (ih (b :: rest)).cons a

/-- Swapping two adjacent elements of which at most one satisfies `p` does not
change the `p`-filtered sublist. -/
theorem filter_swap_pair (p : RPCEndpoint → Bool) (a b : RPCEndpoint)
    (l : List RPCEndpoint) (h : ¬(p a = true ∧ p b = true)) :
    (b :: a :: l).filter p = (a :: b :: l).filter p := by
  cases pa : p a with
  | true =>
    cases pb : p b with
    | true => exact absurd ⟨pa, pb⟩ h
    | false => simp [List.filter_cons, pa, pb]
  | false => cases pb : p b <;> simp [List.filter_cons, pa, pb]

/-- A sweep only ever swaps adjacent endpoints of strictly different weight,
so for any predicate that two differently-weighted endpoints cannot both
satisfy — in particular "has weight w" — the filtered sublist is unchanged. -/
theorem sweep_filter (p : RPCEndpoint → Bool)
    (hp : ∀ a b : RPCEndpoint, a.Weight < b.Weight → ¬(p a = true ∧ p b = true)) :
    ∀ (m : Nat) (l : List RPCEndpoint), (sweep l m).filter p = l.filter p := by
  intro m
  induction m with
  | zero => intro l; cases l <;> simp [sweep]
  | succ m ih =>
    intro l
    match l with
    | [] => simp [sweep]
    | [a] => simp [sweep]
    | a :: b :: rest =>
      simp only [sweep]
      by_cases h : a.Weight < b.Weight
      · rw [if_pos h]
        have h1 : (b :: sweep (a :: rest) m).filter p = (b :: a :: rest).filter p := by
          simp only [List.filter_cons, ih (a :: rest)]
        rw [h1]
        exact filter_swap_pair p a b rest (hp a b h)
      · rw [if_neg h]
        simp only [List.filter_cons, ih (b :: rest)]

/-- The outer loop, being a composition of sweeps, permutes. -/
theorem bubbleIter_perm : ∀ (k : Nat) (l : List RPCEndpoint),
    List.Perm (bubbleIter l k) l := by
  intro k
  induction k with
  | zero => intro l; simp [bubbleIter]
  | succ k ih =>
    intro l
    simp only [bubbleIter]
    exact (ih (sweep l (k + 1))).trans (sweep_perm (k + 1) l)

/-- The outer loop, being a composition of sweeps, preserves weight-class
filtered sublists. -/
theorem bubbleIter_filter (p : RPCEndpoint → Bool)
    (hp : ∀ a b : RPCEndpoint, a.Weight < b.Weight → ¬(p a = true ∧ p b = true)) :
    ∀ (k : Nat) (l : List RPCEndpoint), (bubbleIter l k).filter p = l.filter p := by
  intro k
  induction k with
  | zero => intro l; simp [bubbleIter]
  | succ k ih =>
    intro l
    simp only [bubbleIter]
    rw [ih (sweep l (k + 1)), sweep_filter p hp (k + 1) l]

/-- A sweep whose comparison budget stops at the boundary never inspects the
settled suffix: it factors through the prefix. -/
theorem sweep_append : ∀ (m : Nat) (front back : List RPCEndpoint),
    m + 1 ≤ front.length → sweep (front ++ back) m = sweep front m ++ back := by
  intro m
  induction m with
  | zero => intro front back _; cases front <;> cases back <;> simp [sweep]
  | succ m ih =>
    intro front back h
    match front with
    | [] => simp only [List.length_nil] at h; omega
    | [a] => simp only [List.length_cons, List.length_nil] at h; omega
    | a :: b :: f =>
      simp only [List.cons_append, sweep, List.append_eq]
      have hlen : m + 1 ≤ (a :: f).length := by
        simp only [List.length_cons] at h ⊢; omega
      by_cases hw : a.Weight < b.Weight
      · rw [if_pos hw, if_pos hw,
          show a :: (f ++ back) = (a :: f) ++ back from rfl, ih (a :: f) back hlen]
        rfl
      · have hlen' : m + 1 ≤ (b :: f).length := by
          simp only [List.length_cons] at h ⊢; omega
        rw [if_neg hw, if_neg hw,
          show b :: (f ++ back) = (b :: f) ++ back from rfl, ih (b :: f) back hlen']
        rfl

/-- A full-budget sweep of a non-empty list carries a minimum-weight element
to the last position. -/
theorem sweep_last_min : ∀ (m : Nat) (l : List RPCEndpoint), l.length = m + 1 →
    ∃ ys z, sweep l m = ys ++ [z] ∧ ∀ x ∈ l, z.Weight ≤ x.Weight := by
  intro m
  induction m with
  | zero =>
    intro l h
    match l with
    | [] => simp at h
    | [a] =>
      refine ⟨[], a, rfl, ?_⟩
      intro x hx
      have : x = a := by simpa using hx
      subst this
      exact le_refl _
    | a :: b :: t => simp only [List.length_cons] at h; omega
  | succ m ih =>
    intro l h
    match l with
    | [] => simp at h
    | [a] => simp only [List.length_cons, List.length_nil] at h; omega
    | a :: b :: rest =>
      have hrest : rest.length = m := by simp only [List.length_cons] at h; omega
      simp only [sweep]
      by_cases hw : a.Weight < b.Weight
      · rw [if_pos hw]
        obtain ⟨ys, z, hys, hmin⟩ := ih (a :: rest) (by simp [hrest])
        refine ⟨b :: ys, z, by rw [hys]; rfl, ?_⟩
        intro x hx
        rcases List.mem_cons.mp hx with hxa | hx'
        · subst hxa
          exact hmin x (List.mem_cons_self _ _)
        · rcases List.mem_cons.mp hx' with hxb | hx''
          · subst hxb
            exact (hmin a (List.mem_cons_self _ _)).trans (le_of_lt hw)
          · exact hmin x (List.mem_cons_of_mem _ hx'')
      · rw [if_neg hw]
        obtain ⟨ys, z, hys, hmin⟩ := ih (b :: rest) (by simp [hrest])
        refine ⟨a :: ys, z, by rw [hys]; rfl, ?_⟩
        intro x hx
        rcases List.mem_cons.mp hx with hxa | hx'
        · subst hxa
          exact (hmin b (List.mem_cons_self _ _)).trans (not_lt.mp hw)
        · exact hmin x hx'

/-- Invariant of the outer loop: if the suffix `back` is already sorted
descending and dominated by every element of the `k+1`-element prefix `front`,
then `k` more outer iterations sort the whole list descending by weight. -/
theorem bubbleIter_sorted : ∀ (k : Nat) (front back : List RPCEndpoint),
    front.length = k + 1 →
    List.Pairwise (fun x y => y.Weight ≤ x.Weight) back →
    (∀ x ∈ front, ∀ y ∈ back, y.Weight ≤ x.Weight) →
    List.Pairwise (fun x y => y.Weight ≤ x.Weight) (bubbleIter (front ++ back) k) := by
  intro k
  induction k with
  | zero =>
    intro front back hlen hback hfb
    match front with
    | [] => simp at hlen
    | [a] =>
      simp only [bubbleIter, List.cons_append, List.nil_append]
      exact List.pairwise_cons.mpr ⟨fun y hy => hfb a (List.mem_cons_self _ _) y hy, hback⟩
    | a :: b :: t => simp only [List.length_cons] at hlen; omega
  | succ k ih =>
    intro front back hlen hback hfb
    simp only [bubbleIter]
    rw [sweep_append (k + 1) front back (by omega)]
    obtain ⟨ys, z, hys, hmin⟩ := sweep_last_min (k + 1) front hlen
    have hperm : List.Perm (ys ++ [z]) front := by
      rw [← hys]; exact sweep_perm (k + 1) front
    have hzfront : z ∈ front := hperm.subset (by simp)
    have hysfront : ∀ x ∈ ys, x ∈ front := fun x hx =>
      hperm.subset (List.mem_append_left _ hx)
    have hyslen : ys.length = k + 1 := by
      have hl := hperm.length_eq
      simp only [List.length_append, List.length_cons, List.length_nil] at hl
      omega
    rw [hys, List.append_assoc, List.singleton_append]
    refine ih ys (z :: back) hyslen ?_ ?_
    · exact List.pairwise_cons.mpr ⟨fun y hy => hfb z hzfront y hy, hback⟩
    · intro x hx y hy
      rcases List.mem_cons.mp hy with h1 | h2
      · subst h1; exact hmin x (hysfront x hx)
      · exact hfb x (hysfront x hx) y h2

/-- C4: `getSortedEndpointsByWeight` returns a permutation of its input that is
sorted by descending weight and stable: for every weight `w`, the sublist of
endpoints of weight `w` is exactly the input's, in the input's order. Being a
pure function, the same ordering results on every call. -/
theorem getSortedEndpointsByWeight_spec (l : List RPCEndpoint) :
    List.Perm (getSortedEndpointsByWeight l) l ∧
    List.Pairwise (fun x y => y.Weight ≤ x.Weight) (getSortedEndpointsByWeight l) ∧
    ∀ w : Int, (getSortedEndpointsByWeight l).filter (fun e => e.Weight == w) =
      l.filter (fun e => e.Weight == w) := by
  have hp : ∀ w : Int, ∀ a b : RPCEndpoint, a.Weight < b.Weight →
      ¬((a.Weight == w) = true ∧ (b.Weight == w) = true) := by
    intro w a b hlt ⟨ha, hb⟩
    rw [beq_iff_eq] at ha hb
    rw [ha, hb] at hlt
    exact lt_irrefl w hlt
  refine ⟨?_, ?_, ?_⟩
  · unfold getSortedEndpointsByWeight
    split
    · rename_i h; rw [h]
    · exact bubbleIter_perm _ l
  · unfold getSortedEndpointsByWeight
    split
    · exact List.Pairwise.nil
    · rename_i h
      match l, h with
      | a :: t, _ =>
        have hsorted := bubbleIter_sorted ((a :: t).length - 1) (a :: t) []
          (by simp) List.Pairwise.nil (by intro x _ y hy; cases hy)
        simpa using hsorted
  · intro w
    unfold getSortedEndpointsByWeight
    split
    · rename_i h; rw [h]
    · exact bubbleIter_filter _ (hp w) _ l
